import Mathlib

/-!
Verification development for the InboxMiner repository.

The repository retrieves emails from a mailbox via the Microsoft Graph REST
API, filters them by sender, subject and date, parses the returned payloads,
and persists each message exactly once into a relational store while logging
each processing attempt.

This file shallowly embeds the parts of the code relevant to the stated
properties:
  * the search-criteria compiler (`src/connectors/email_connector.py`:
    `_build_date_range`, `_build_graph_filter`, the request parameters of
    `search_emails`),
  * message fetching and payload parsing (`fetch_email`, `_parse_date`),
  * the ingestion pipeline (`src/core/email_extractor.py`: `extract_emails`,
    `_store_email`, `_log_processing_activity`) over an abstract connector
    and an explicit database state.

Machine-level integers do not occur; timestamps are modelled as `Nat`.
Python exceptions are modelled with `Except String`; a Python `try/except`
becomes a `match` on the `Except` value.
-/

/-! ## Calendar dates

`date` values flowing through the filter compiler.  In Python
`date + timedelta(days=1)` performs exact Gregorian arithmetic, embedded here
as `Date.addOneDay`. -/

structure Date where
  year : Nat
  month : Nat
  day : Nat
deriving DecidableEq, Repr

def isLeapYear (y : Nat) : Bool :=
  (y % 4 == 0 && y % 100 != 0) || y % 400 == 0

def daysInMonth (y m : Nat) : Nat :=
  if m == 2 then (if isLeapYear y then 29 else 28)
  else if m == 4 || m == 6 || m == 9 || m == 11 then 30
  else 31

/-- Gregorian successor day, the embedding of `date + timedelta(days=1)`. -/
def Date.addOneDay (d : Date) : Date :=
  if d.day < daysInMonth d.year d.month then ⟨d.year, d.month, d.day + 1⟩
  else if d.month < 12 then ⟨d.year, d.month + 1, 1⟩
  else ⟨d.year + 1, 1, 1⟩

def pad2 (n : Nat) : String :=
  if n < 10 then "0" ++ toString n else toString n

def pad4 (n : Nat) : String :=
  if n < 10 then "000" ++ toString n
  else if n < 100 then "00" ++ toString n
  else if n < 1000 then "0" ++ toString n
  else toString n

/-- Embedding of `EmailConnector._iso_utc` applied to the midnight-UTC
datetimes produced by `_build_date_range`: Python
`datetime.combine(d, time.min).replace(tzinfo=utc).isoformat()` renders
`YYYY-MM-DDT00:00:00+00:00`, and `_iso_utc` replaces the suffix with `Z`.
All datetimes reaching `_iso_utc` in the source are midnight UTC, so the
embedding carries the `Date` alone. -/
def iso_utc (d : Date) : String :=
  pad4 d.year ++ "-" ++ pad2 d.month ++ "-" ++ pad2 d.day ++ "T00:00:00Z"

/-! ## Email filter

`EmailFilter` from `src/connectors/email_connector.py`.  The `date_filter`
dictionary is embedded as a structure of optional fields: a `none` field is
an absent key.  A dictionary value may be a `date` or a `datetime`;
`_normalize_date` projects either to a `date`. -/

inductive DateValue where
  | d (dd : Date)
  | dt (dd : Date) (seconds : Nat)
deriving DecidableEq, Repr

/-- Embedding of `EmailConnector._normalize_date`:
`value.date() if isinstance(value, datetime) else value`. -/
def normalize_date : DateValue → Date
  | .d x => x
  | .dt x _ => x

structure DateFilterDict where
  operator : Option String
  date : Option DateValue
  start_date : Option DateValue
  end_date : Option DateValue
deriving DecidableEq, Repr

structure EmailFilter where
  sender : Option String
  subject : Option String
  date_filter : Option DateFilterDict
deriving DecidableEq, Repr

/-- Embedding of `EmailConnector._build_date_range`.  Returns the UTC
half-open range `[start, end)` as midnight dates; `.error` models the
`KeyError` Python raises when the date key of the operator is absent. -/
def build_date_range (f : EmailFilter) : Except String (Option Date × Option Date) :=
  match f.date_filter with
  | none => .ok (none, none)
  | some df =>
    if df.operator == some "=" then
      match df.date with
      | none => .error "KeyError: date"
      | some v =>
        let target := normalize_date v
        .ok (some target, some target.addOneDay)
    else if df.operator == some ">" then
      match df.date with
      | none => .error "KeyError: date"
      | some v => .ok (some (normalize_date v), none)
    else if df.operator == some "range" then
      match df.start_date, df.end_date with
      | some s, some e =>
        .ok (some (normalize_date s), some (normalize_date e).addOneDay)
      | none, _ => .error "KeyError: start_date"
      | _, none => .error "KeyError: end_date"
    else
      .ok (none, none)

/-- Embedding of `EmailConnector._build_graph_filter`: the OData
`receivedDateTime` constraint, or `none` when no date parts were produced. -/
def build_graph_filter (f : EmailFilter) : Except String (Option String) :=
  match build_date_range f with
  | .error e => .error e
  | .ok (start, stop) =>
    let parts : List String :=
      (match start with
       | some s => ["receivedDateTime ge " ++ iso_utc s]
       | none => []) ++
      (match stop with
       | some e => ["receivedDateTime lt " ++ iso_utc e]
       | none => [])
    if parts.isEmpty then .ok none
    else .ok (some (String.intercalate " and " parts))

/-- The fixed request parameters of `EmailConnector.search_emails`. -/
def base_params : List (String × String) :=
  [("$top", "100"),
   ("$select", "id,subject,from,receivedDateTime"),
   ("$orderby", "receivedDateTime desc")]

/-- The parameter list `search_emails` sends on its first page request:
`base_params`, plus `$filter` exactly when `_build_graph_filter` produced a
criteria string. -/
def search_params (f : EmailFilter) : Except String (List (String × String)) :=
  match build_graph_filter f with
  | .error e => .error e
  | .ok none => .ok base_params
  | .ok (some g) => .ok (base_params ++ [("$filter", g)])

/-! ## Graph message payloads and `fetch_email`

The JSON payload `fetch_email` receives from
`GET /me/messages/{id}?$select=...`.  An `Option` field that is `none`
models an absent key, so `Option.getD` embeds the Python `dict.get(key,
default)` call.  Timestamps are `Nat` (seconds, naive UTC). -/

structure GraphBody where
  contentType : Option String
  content : Option String
deriving DecidableEq, Repr

structure GraphHeader where
  name : Option String
  value : Option String
deriving DecidableEq, Repr

structure GraphMessage where
  internetMessageId : Option String
  fromAddress : Option String
  subject : Option String
  receivedDateTime : Option String
  body : Option GraphBody
  bodyPreview : Option String
  internetMessageHeaders : List GraphHeader
deriving DecidableEq, Repr

/-- Python `str.lower()` on the ASCII strings it is applied to
(content types). -/
def str_lower (s : String) : String := ⟨s.data.map Char.toLower⟩

/-- The dictionary `fetch_email` returns. -/
structure EmailData where
  message_id : String
  sender : String
  subject : String
  received_date : Nat
  body_plain : String
  body_html : String
  raw_headers : String
deriving DecidableEq, Repr

/-- Embedding of `EmailConnector._parse_date`.  `isoParse` and `rfcParse`
abstract `datetime.fromisoformat` and `email.utils.parsedate_to_datetime`
(each returns `none` where the library call raises), `now` is
`datetime.utcnow()`.  An absent or unparseable date string yields `now`;
the function never raises. -/
def parse_date (isoParse rfcParse : String → Option Nat) (now : Nat)
    (date_str : Option String) : Nat :=
  match date_str with
  | none => now
  | some s =>
    match isoParse s with
    | some t => t
    | none =>
      match rfcParse s with
      | some t => t
      | none => now

/-- Embedding of `EmailConnector.fetch_email`.  `respond` models the Graph
GET for a message id: `.error` is a transport failure or non-2xx status
(`raise_for_status`), `.ok` the decoded JSON.  The `except` clause of the
source logs and re-raises, so a backend error propagates unchanged. -/
def fetch_email (respond : String → Except String GraphMessage)
    (isoParse rfcParse : String → Option Nat) (now : Nat)
    (email_id : String) : Except String EmailData :=
  match respond email_id with
  | .error e => .error e
  | .ok message =>
    let body := (message.body).getD ⟨none, none⟩
    let content_type := str_lower (body.contentType.getD "")
    let content := body.content.getD ""
    let body_html := if content_type == "html" then content else ""
    let body_plain := if content_type == "html" then message.bodyPreview.getD "" else content
    let headers := String.intercalate "\n"
      (message.internetMessageHeaders.map
        (fun h => h.name.getD "" ++ ": " ++ h.value.getD ""))
    .ok
      { message_id := message.internetMessageId.getD ("generated-" ++ email_id)
        sender := message.fromAddress.getD ""
        subject := message.subject.getD ""
        received_date := parse_date isoParse rfcParse now message.receivedDateTime
        body_plain := body_plain
        body_html := body_html
        raw_headers := headers }

/-- Projection: the `received_date` of a successful fetch, `none` on error. -/
def fetchedDate : Except String EmailData → Option Nat
  | .ok r => some r.received_date
  | .error _ => none

/-- Projection: the `message_id` of a successful fetch, `none` on error. -/
def fetchedMsgId : Except String EmailData → Option String
  | .ok r => some r.message_id
  | .error _ => none

/-! ## MIME body extraction

Modelled from the spec: the MIME part-tree body extractor of the IMAP
connector variant is not present under `src/` (the Graph connector reads
`body`/`bodyPreview` from the API instead of walking MIME parts).  Per the
spec: traverse all leaf parts, skipping container/multipart nodes and any
part whose disposition is "attachment"; collect `text/plain` and
`text/html` leaves; concatenate multiple parts of the same kind with a
blank-line separator in document order; a single-part message is treated
as plain unless its content type is `text/html`.  Payloads are carried
already decoded (the charset-fallback decode never fails, so decoding is
not observable at this level). -/

inductive MimePart where
  | leaf (contentType : String) (disposition : Option String) (payload : String)
  | multi (parts : List MimePart)

mutual

/-- Modelled from the spec: flatten the part tree to its leaves in document
order, skipping container nodes. -/
def collectLeaves : MimePart → List (String × Option String × String)
  | .leaf ct disp payload => [(ct, disp, payload)]
  | .multi parts => collectLeavesList parts

/-- Modelled from the spec: leaves of a forest of parts, in document order. -/
def collectLeavesList : List MimePart → List (String × Option String × String)
  | [] => []
  | p :: ps => collectLeaves p ++ collectLeavesList ps

end

/-- Modelled from the spec: produce `(body_plain, body_html)` for a raw
message in tree form. -/
def extract_bodies : MimePart → String × String
  | .leaf ct _ payload =>
    if str_lower ct == "text/html" then ("", payload) else (payload, "")
  | .multi parts =>
    let leaves := (collectLeavesList parts).filter
      (fun l => l.2.1 ≠ some "attachment")
    let plains := (leaves.filter (fun l => str_lower l.1 == "text/plain")).map (fun l => l.2.2)
    let htmls := (leaves.filter (fun l => str_lower l.1 == "text/html")).map (fun l => l.2.2)
    (String.intercalate "\n\n" plains, String.intercalate "\n\n" htmls)

/-! ## Database state and the ingestion pipeline

`src/core/email_extractor.py` over an explicit database state.

`DB.rows` are the committed `raw_emails` rows visible to the pre-insert
existence query of `_store_email`.  `DB.phantomIds` are `message_id`
values enforced by the unique index of the table but not visible to that query
(rows committed by another pipeline instance between the check and the
flush): inserting one of them raises `IntegrityError`, which models the
race the unique constraint guards against.

`DB.sinkFail` tells, per log-write attempt (counted by `DB.logCalls`),
whether the session writing an `email_processing_logs` row raises; this
models a failing log sink. -/

/-- A persisted `raw_emails` row (the fields `_store_email` sets). -/
structure RawEmailRow where
  message_id : String
  sender : String
  subject : String
  body_plain : String
  body_html : String
  received_date : Nat
  processor_type : Option String
  raw_headers : String
  processed : Bool
deriving DecidableEq, Repr

/-- A row of `email_processing_logs` as written by
`_log_processing_activity` (fields the extractor passes; `raw_email_id`
and `processing_time_ms` are always left `None` by `extract_emails`). -/
structure LogEntry where
  action : String
  processor_type : Option String
  status : String
  message : Option String
  error_details : Option String
deriving DecidableEq, Repr

structure DB where
  rows : List RawEmailRow
  phantomIds : List String
  logs : List LogEntry
  logCalls : Nat
  sinkFail : Nat → Bool

/-- The session body of `_log_processing_activity`: adding and committing
the log row, which may raise. -/
def log_sink_write (db : DB) (entry : LogEntry) : Except String (List LogEntry) :=
  if db.sinkFail db.logCalls then .error "database session error"
  else .ok (db.logs ++ [entry])

/-- Embedding of `EmailExtractor._log_processing_activity`: the `except`
clause catches any failure of the session write, so the function is total
and a sink failure only loses the entry. -/
def log_processing_activity (db : DB) (entry : LogEntry) : DB :=
  match log_sink_write db entry with
  | .ok logs2 =>
    { rows := db.rows, phantomIds := db.phantomIds, logs := logs2,
      logCalls := db.logCalls + 1, sinkFail := db.sinkFail }
  | .error _ =>
    { rows := db.rows, phantomIds := db.phantomIds, logs := db.logs,
      logCalls := db.logCalls + 1, sinkFail := db.sinkFail }

inductive DBError where
  | integrityError
  | other (e : String)

/-- The `session.add` / `session.flush` of `_store_email`: the unique index
on `message_id` raises `IntegrityError` when the id is already present,
whether in a visible row or a phantom one. -/
def db_insert (db : DB) (r : RawEmailRow) : Except DBError DB :=
  if db.rows.any (fun x => x.message_id == r.message_id)
      || db.phantomIds.contains r.message_id then
    .error .integrityError
  else
    .ok { rows := db.rows ++ [r], phantomIds := db.phantomIds, logs := db.logs,
          logCalls := db.logCalls, sinkFail := db.sinkFail }

/-- The `RawEmail(...)` construction inside `_store_email`. -/
def mk_raw_email (d : EmailData) (processor_type : Option String) : RawEmailRow :=
  { message_id := d.message_id, sender := d.sender, subject := d.subject,
    body_plain := d.body_plain, body_html := d.body_html,
    received_date := d.received_date, processor_type := processor_type,
    raw_headers := d.raw_headers, processed := false }

/-- Embedding of `EmailExtractor._store_email`.  `.ok (true, _)` is a new
insert, `.ok (false, _)` the already-exists outcome (pre-check hit or
caught `IntegrityError`), `.error` the re-raise of any other exception. -/
def store_email (db : DB) (d : EmailData) (processor_type : Option String) :
    Except String (Bool × DB) :=
  if db.rows.any (fun x => x.message_id == d.message_id) then
    .ok (false, db)
  else
    match db_insert db (mk_raw_email d processor_type) with
    | .ok db2 => .ok (true, db2)
    | .error .integrityError => .ok (false, db)
    | .error (.other e) => .error e

/-- Abstract connected connector session as `extract_emails` uses it:
`connectResult` models `connect()` (run by `__enter__`), `search` models
`search_emails`, `fetch` models `fetch_email`. -/
structure ConnModel where
  connectResult : Except String Unit
  search : EmailFilter → Except String (List String)
  fetch : String → Except String EmailData

/-- The log row written on a successful store. -/
def successEntry (processor_type : Option String) (d : EmailData) : LogEntry :=
  { action := "extracted", processor_type := processor_type, status := "success",
    message := some ("Email stored: " ++ d.message_id), error_details := none }

/-- The log row written when processing one email id fails. -/
def errorEntry (processor_type : Option String) (email_id e : String) : LogEntry :=
  { action := "extracted", processor_type := processor_type, status := "error",
    message := some ("Failed to process email ID " ++ email_id),
    error_details := some e }

/-- The log row written when the batch as a whole fails. -/
def batchErrorEntry (processor_type : Option String) (e : String) : LogEntry :=
  { action := "extraction_batch", processor_type := processor_type,
    status := "error", message := some "Batch extraction failed",
    error_details := some e }

/-- The per-handle loop body of `extract_emails` (lines 69-93): fetch,
store, log, under one `try/except` that isolates the failure of a single
email id.  The accumulator is `(extracted_count, error_count, db)`. -/
def process_email_id (conn : ConnModel) (processor_type : Option String)
    (acc : Nat × Nat × DB) (email_id : String) : Nat × Nat × DB :=
  let (cnt, errs, db) := acc
  match conn.fetch email_id with
  | .error e =>
    (cnt, errs + 1, log_processing_activity db (errorEntry processor_type email_id e))
  | .ok email_data =>
    match store_email db email_data processor_type with
    | .ok (true, db2) =>
      (cnt + 1, errs, log_processing_activity db2 (successEntry processor_type email_data))
    | .ok (false, db2) => (cnt, errs, db2)
    | .error e =>
      (cnt, errs + 1, log_processing_activity db (errorEntry processor_type email_id e))

/-- Result of a pipeline run: the returned count with the final database
state, or the re-raised exception with the database state at that point. -/
inductive ExtractOutcome where
  | ok (count : Nat) (db : DB)
  | raised (e : String) (db : DB)

/-- Embedding of `EmailExtractor.extract_emails`.  The filter is built from
the arguments; `with self.connector` connects (failures reach the outer
`except`), search failures reach the outer `except` too; the outer
`except` writes the `extraction_batch` error row and re-raises. -/
def extract_emails (conn : ConnModel) (sender subject : Option String)
    (date_filter : Option DateFilterDict) (processor_type : Option String)
    (db : DB) : ExtractOutcome :=
  let email_filter : EmailFilter :=
    { sender := sender, subject := subject, date_filter := date_filter }
  match conn.connectResult with
  | .error e =>
    .raised e (log_processing_activity db (batchErrorEntry processor_type e))
  | .ok _ =>
    match conn.search email_filter with
    | .error e =>
      .raised e (log_processing_activity db (batchErrorEntry processor_type e))
    | .ok email_ids =>
      if email_ids.isEmpty then .ok 0 db
      else
        let r := email_ids.foldl (process_email_id conn processor_type) (0, 0, db)
        .ok r.1 r.2.2

/-- Projection: the success count returned by a run, `none` if it raised. -/
def outcomeCount : ExtractOutcome → Option Nat
  | .ok c _ => some c
  | .raised _ _ => none

/-- Projection: the re-raised exception of a run, `none` if it returned. -/
def outcomeError : ExtractOutcome → Option String
  | .ok _ _ => none
  | .raised e _ => some e

/-- Projection: the database state after a run. -/
def outcomeDB : ExtractOutcome → DB
  | .ok _ db => db
  | .raised _ db => db

/-! ## Helper lemmas -/

theorem intercalate_and_pair (a b : String) :
    String.intercalate " and " [a, b] = a ++ " and " ++ b := by
  simp [String.intercalate, String.intercalate.go, String.append_assoc]

theorem log_activity_rows (db : DB) (entry : LogEntry) :
    (log_processing_activity db entry).rows = db.rows := by
  unfold log_processing_activity log_sink_write
  by_cases h : db.sinkFail db.logCalls = true <;> simp [h]

theorem log_activity_phantomIds (db : DB) (entry : LogEntry) :
    (log_processing_activity db entry).phantomIds = db.phantomIds := by
  unfold log_processing_activity log_sink_write
  by_cases h : db.sinkFail db.logCalls = true <;> simp [h]

theorem log_activity_healthy (db : DB) (entry : LogEntry)
    (h : db.sinkFail = fun _ => false) :
    log_processing_activity db entry =
      { rows := db.rows, phantomIds := db.phantomIds, logs := db.logs ++ [entry],
        logCalls := db.logCalls + 1, sinkFail := db.sinkFail } := by
  unfold log_processing_activity log_sink_write
  simp [h]

theorem collectLeavesList_append (xs ys : List MimePart) :
    collectLeavesList (xs ++ ys) = collectLeavesList xs ++ collectLeavesList ys := by
  induction xs with
  | nil => simp [collectLeavesList]
  | cons p ps ih => simp [collectLeavesList, ih]

/-! ## Claims about the search-criteria compiler -/

/-- C3: Graph date-predicate compilation.  For operator `=` on day `d` the
compiled OData filter string is
`receivedDateTime ge <d midnight Z> and receivedDateTime lt <d+1day midnight Z>`;
for operator `>` on day `d` it is `receivedDateTime ge <d midnight Z>`; for
operator `range(start, end)` it is
`receivedDateTime ge <start midnight Z> and receivedDateTime lt <end+1day midnight Z>`
(the end made inclusive by adding one day); with no date filter set at all,
no `$filter` parameter is produced. -/
theorem c3_graph_date_predicate_compilation (snd sbj : Option String) (d s e : Date) :
    build_graph_filter ⟨snd, sbj, some ⟨some "=", some (.d d), none, none⟩⟩
      = .ok (some ("receivedDateTime ge " ++ iso_utc d
          ++ " and receivedDateTime lt " ++ iso_utc d.addOneDay))
  ∧ build_graph_filter ⟨snd, sbj, some ⟨some ">", some (.d d), none, none⟩⟩
      = .ok (some ("receivedDateTime ge " ++ iso_utc d))
  ∧ build_graph_filter ⟨snd, sbj, some ⟨some "range", none, some (.d s), some (.d e)⟩⟩
      = .ok (some ("receivedDateTime ge " ++ iso_utc s
          ++ " and receivedDateTime lt " ++ iso_utc e.addOneDay))
  ∧ search_params ⟨snd, sbj, none⟩ = .ok base_params
  ∧ ∀ p ∈ base_params, p.1 ≠ "$filter" := by
  refine ⟨?_, ?_, ?_, ?_, ?_⟩
  · simp [build_graph_filter, build_date_range, normalize_date,
      String.intercalate, String.intercalate.go, String.append_assoc]
    rw [← String.append_assoc " and "]
    congr 1
  · simp [build_graph_filter, build_date_range, normalize_date,
      String.intercalate, String.intercalate.go]
  · simp [build_graph_filter, build_date_range, normalize_date,
      String.intercalate, String.intercalate.go, String.append_assoc]
    rw [← String.append_assoc " and "]
    congr 1
  · rfl
  · decide

/-- C9: for every `EmailFilter` whose `date_filter` carries an operator
other than `=`, `>` or `range`, filter compilation raises no error and
produces no date constraint at all: the compiled Graph query has no
`$filter` parameter, so the search runs as if no date filter had been
given. -/
theorem c9_unknown_operator_ignored (f : EmailFilter) (df : DateFilterDict) (op : String)
    (hdf : f.date_filter = some df) (hop : df.operator = some op)
    (h1 : op ≠ "=") (h2 : op ≠ ">") (h3 : op ≠ "range") :
    build_graph_filter f = .ok none
  ∧ search_params f = .ok base_params
  ∧ ∀ p ∈ base_params, p.1 ≠ "$filter" := by
  have hbdr : build_date_range f = .ok (none, none) := by
    simp [build_date_range, hdf, hop, h1, h2, h3]
  have hbgf : build_graph_filter f = .ok none := by
    simp [build_graph_filter, hbdr]
  refine ⟨hbgf, by simp [search_params, hbgf], by decide⟩

/-- Witness for C9 at the concrete operator `<` on 2024-01-01. -/
theorem c9_unknown_operator_ignored_witness :
    (some "<" : Option String) = some "<" ∧
    build_graph_filter ⟨none, none, some ⟨some "<", some (.d ⟨2024, 1, 1⟩), none, none⟩⟩
      = .ok none := by
  refine ⟨rfl, ?_⟩
  exact (c9_unknown_operator_ignored
    ⟨none, none, some ⟨some "<", some (.d ⟨2024, 1, 1⟩), none, none⟩⟩
    ⟨some "<", some (.d ⟨2024, 1, 1⟩), none, none⟩ "<" rfl rfl
    (by decide) (by decide) (by decide)).1

/-! ## Claims about `fetch_email` -/

/-- C5 counterexample: the claim says a fetch whose payload carries an
unparseable received-date field fails with a `FetchError`; on the code it
does not fail.  Concretely, for a payload whose `receivedDateTime` is the
string `"not-a-date"` (rejected by both date parsers, modelled by the
everywhere-`none` oracles), `fetch_email` returns successfully and
substitutes the current time `42` for the received date. -/
theorem c5_counterexample :
    fetchedDate (fetch_email
      (fun _ => .ok ⟨some "mid-1", some "a@x.com", some "subj",
        some "not-a-date", none, none, []⟩)
      (fun _ => none) (fun _ => none) 42 "H1") = some 42 := by
  rfl

/-- C5 amended: `fetch_email` fails exactly when the backend reports
failure, re-raising the backend error unchanged (there is no dedicated
`FetchError` type; the handle appears only in the log).  An absent or
unparseable received-date field does not fail the call: the record is
returned with `received_date` replaced by the current UTC time. -/
theorem c5_fetch_failure_amended (respond : String → Except String GraphMessage)
    (isoParse rfcParse : String → Option Nat) (now : Nat) (email_id : String) :
    (∀ e, respond email_id = .error e →
        fetch_email respond isoParse rfcParse now email_id = .error e)
  ∧ (∀ m, respond email_id = .ok m →
      (m.receivedDateTime = none ∨
        (∃ s, m.receivedDateTime = some s ∧ isoParse s = none ∧ rfcParse s = none)) →
      fetchedDate (fetch_email respond isoParse rfcParse now email_id) = some now) := by
  constructor
  · intro e he
    simp [fetch_email, he]
  · intro m hm hdate
    rcases hdate with hnone | ⟨s, hs, hiso, hrfc⟩
    · simp [fetch_email, hm, fetchedDate, parse_date, hnone]
    · simp [fetch_email, hm, fetchedDate, parse_date, hs, hiso, hrfc]

/-- Witness for C5 (amended) at a failing backend and at an unparseable
date string. -/
theorem c5_fetch_failure_amended_witness :
    ((fun _ => .error "503") "H1" : Except String GraphMessage) = .error "503"
  ∧ fetch_email (fun _ => .error "503") (fun _ => none) (fun _ => none) 7 "H1"
      = .error "503"
  ∧ fetchedDate (fetch_email
      (fun _ => .ok ⟨some "mid-2", none, none, some "junk", none, none, []⟩)
      (fun _ => none) (fun _ => none) 9 "H2") = some 9 := by
  refine ⟨rfl, ?_, ?_⟩
  · exact (c5_fetch_failure_amended (fun _ => .error "503")
      (fun _ => none) (fun _ => none) 7 "H1").1 "503" rfl
  · exact (c5_fetch_failure_amended
      (fun _ => .ok ⟨some "mid-2", none, none, some "junk", none, none, []⟩)
      (fun _ => none) (fun _ => none) 9 "H2").2
      ⟨some "mid-2", none, none, some "junk", none, none, []⟩ rfl
      (Or.inr ⟨"junk", rfl, rfl, rfl⟩)

/-! ## Claims about body extraction -/

/-- C6: a multipart message with one `text/plain` part "Hello" and one
`text/html` part "&lt;p&gt;Hello&lt;/p&gt;" (and, in the concrete instance, an
attachment part besides) yields `body_plain = "Hello"` and
`body_html = "<p>Hello</p>"`; in general, a part whose disposition is
"attachment" contributes to neither body: inserting it anywhere in a
multipart leaves the extracted bodies unchanged. -/
theorem c6_body_extraction :
    extract_bodies (.multi
      [.leaf "text/plain" none "Hello",
       .leaf "text/html" none "<p>Hello</p>",
       .leaf "application/pdf" (some "attachment") "binarydata"])
      = ("Hello", "<p>Hello</p>")
  ∧ ∀ (xs ys : List MimePart) (ct payload : String),
      extract_bodies (.multi (xs ++ .leaf ct (some "attachment") payload :: ys))
        = extract_bodies (.multi (xs ++ ys)) := by
  constructor
  · decide
  · intro xs ys ct payload
    have h : collectLeavesList (xs ++ .leaf ct (some "attachment") payload :: ys)
        = collectLeavesList xs ++ (ct, some "attachment", payload) :: collectLeavesList ys := by
      rw [collectLeavesList_append]
      simp [collectLeavesList, collectLeaves]
    simp [extract_bodies, h, collectLeavesList_append, List.filter_append]

/-- C7 counterexample: the claim concludes that `message_id` is always a
non-empty string; on the code it is not.  `dict.get` with a default only
falls back when the key is absent, so a payload carrying an empty string
as `internetMessageId` yields a record whose `message_id` is `""`. -/
theorem c7_counterexample :
    fetchedMsgId (fetch_email
      (fun _ => .ok ⟨some "", some "a@x.com", some "subj",
        some "2026-01-01T00:00:00Z", none, none, []⟩)
      (fun _ => none) (fun _ => none) 0 "H1") = some "" := by
  rfl

/-- C7 amended: for every fetched message whose backend payload omits the
native internet message id, the `message_id` of the returned record is the
synthesized value `generated-<handle>`, which is non-empty; when the
payload carries a native id, it is passed through unchanged, so
`message_id` is non-empty whenever the native id is. -/
theorem c7_generated_message_id_amended
    (respond : String → Except String GraphMessage)
    (isoParse rfcParse : String → Option Nat) (now : Nat) (email_id : String)
    (m : GraphMessage) (hm : respond email_id = .ok m) :
    (m.internetMessageId = none →
       fetchedMsgId (fetch_email respond isoParse rfcParse now email_id)
         = some ("generated-" ++ email_id)
     ∧ ("generated-" ++ email_id) ≠ "")
  ∧ (∀ s, m.internetMessageId = some s →
       fetchedMsgId (fetch_email respond isoParse rfcParse now email_id) = some s) := by
  constructor
  · intro hnone
    constructor
    · simp [fetch_email, hm, fetchedMsgId, hnone]
    · intro habs
      have hlen := congrArg String.length habs
      simp [String.length_append] at hlen
      exact absurd hlen.1 (by decide)
  · intro s hs
    simp [fetch_email, hm, fetchedMsgId, hs]

/-- Witness for C7 (amended) at a payload with the id key absent. -/
theorem c7_generated_message_id_amended_witness :
    ((fun _ => .ok ⟨none, some "a@x.com", some "subj", none, none, none, []⟩ :
        String → Except String GraphMessage) "H9"
      = .ok ⟨none, some "a@x.com", some "subj", none, none, none, []⟩)
  ∧ fetchedMsgId (fetch_email
      (fun _ => .ok ⟨none, some "a@x.com", some "subj", none, none, none, []⟩)
      (fun _ => none) (fun _ => none) 3 "H9") = some "generated-H9" := by
  refine ⟨rfl, ?_⟩
  have h := (c7_generated_message_id_amended
    (fun _ => .ok ⟨none, some "a@x.com", some "subj", none, none, none, []⟩)
    (fun _ => none) (fun _ => none) 3 "H9"
    ⟨none, some "a@x.com", some "subj", none, none, none, []⟩ rfl).1 rfl
  exact h.1

/-! ## Claims about the ingestion pipeline -/

/-- C4: for every store of a message whose `message_id` already exists, a
uniqueness violation raised by the database at insert time (the id is in
the unique index but invisible to the pre-insert query) is treated
identically to a pre-insert existence-check hit: both resolve to the
already-exists outcome `.ok (false, db)` with the database unchanged,
neither propagates an error to the caller, and neither is counted: the
per-handle step leaves the success count unchanged. -/
theorem c4_integrity_error_equals_precheck (db : DB) (d : EmailData)
    (pt : Option String) (conn : ConnModel) (email_id : String) (c errs : Nat)
    (hfetch : conn.fetch email_id = .ok d)
    (hdup : db.rows.any (fun x => x.message_id == d.message_id) = true
          ∨ db.phantomIds.contains d.message_id = true) :
    store_email db d pt = .ok (false, db)
  ∧ process_email_id conn pt (c, errs, db) email_id = (c, errs, db) := by
  have hstore : store_email db d pt = .ok (false, db) := by
    rcases hdup with h | h
    · simp [store_email, h]
    · by_cases hvis : db.rows.any (fun x => x.message_id == d.message_id) = true
      · simp [store_email, hvis]
      · have h2 : d.message_id ∈ db.phantomIds := by simpa using h
        simp [store_email, hvis, db_insert, mk_raw_email, h2]
  exact ⟨hstore, by simp [process_email_id, hfetch, hstore]⟩

/-- Witness for C4 at a phantom id `m1`: the pre-insert check misses it but
the unique index holds it. -/
theorem c4_integrity_error_equals_precheck_witness :
    ((⟨[], ["m1"], [], 0, fun _ => false⟩ : DB).rows.any
        (fun x => x.message_id == "m1") = true
      ∨ (⟨[], ["m1"], [], 0, fun _ => false⟩ : DB).phantomIds.contains "m1" = true)
  ∧ store_email ⟨[], ["m1"], [], 0, fun _ => false⟩
      ⟨"m1", "a@x", "s", 0, "", "", ""⟩ none
      = .ok (false, ⟨[], ["m1"], [], 0, fun _ => false⟩) := by
  refine ⟨Or.inr (by decide), ?_⟩
  exact (c4_integrity_error_equals_precheck
    ⟨[], ["m1"], [], 0, fun _ => false⟩ ⟨"m1", "a@x", "s", 0, "", "", ""⟩ none
    ⟨.ok (), fun _ => .ok [], fun _ => .ok ⟨"m1", "a@x", "s", 0, "", "", ""⟩⟩
    "h1" 0 0 rfl (Or.inr (by decide))).1

/-- C8: if an error occurs outside the per-handle loop of `extract_emails`
(here: the search itself fails), exactly one activity-log entry with
action `extraction_batch` and status `error` is written, the stored rows
are untouched, and the exception is re-raised to the caller rather than
swallowed. -/
theorem c8_batch_error_logged_and_reraised (conn : ConnModel)
    (snd sbj : Option String) (dfil : Option DateFilterDict)
    (pt : Option String) (db : DB) (e : String)
    (hc : conn.connectResult = .ok ())
    (hs : conn.search ⟨snd, sbj, dfil⟩ = .error e)
    (hlogs : db.logs = []) (hsink : db.sinkFail = fun _ => false) :
    outcomeError (extract_emails conn snd sbj dfil pt db) = some e
  ∧ (outcomeDB (extract_emails conn snd sbj dfil pt db)).logs
      = [batchErrorEntry pt e]
  ∧ (batchErrorEntry pt e).action = "extraction_batch"
  ∧ (batchErrorEntry pt e).status = "error"
  ∧ (outcomeDB (extract_emails conn snd sbj dfil pt db)).rows = db.rows := by
  have hrun : extract_emails conn snd sbj dfil pt db
      = .raised e (log_processing_activity db (batchErrorEntry pt e)) := by
    simp [extract_emails, hc, hs]
  rw [log_activity_healthy db (batchErrorEntry pt e) hsink] at hrun
  refine ⟨?_, ?_, rfl, rfl, ?_⟩ <;> simp [hrun, outcomeError, outcomeDB, hlogs]

/-- Witness for C8 with a concrete connector whose search raises `boom`. -/
theorem c8_batch_error_logged_and_reraised_witness :
    ((⟨.ok (), fun _ => .error "boom", fun _ => .error "unused"⟩ : ConnModel).search
        ⟨none, none, none⟩ = .error "boom")
  ∧ outcomeError (extract_emails
      ⟨.ok (), fun _ => .error "boom", fun _ => .error "unused"⟩
      none none none none ⟨[], [], [], 0, fun _ => false⟩) = some "boom"
  ∧ (outcomeDB (extract_emails
      ⟨.ok (), fun _ => .error "boom", fun _ => .error "unused"⟩
      none none none none ⟨[], [], [], 0, fun _ => false⟩)).logs
      = [batchErrorEntry none "boom"] := by
  have h := c8_batch_error_logged_and_reraised
    ⟨.ok (), fun _ => .error "boom", fun _ => .error "unused"⟩
    none none none none ⟨[], [], [], 0, fun _ => false⟩ "boom" rfl rfl rfl rfl
  exact ⟨rfl, h.1, h.2.1⟩

theorem log_activity_shape (db : DB) (entry : LogEntry) :
    ∃ l n, log_processing_activity db entry = ⟨db.rows, db.phantomIds, l, n, db.sinkFail⟩ := by
  unfold log_processing_activity log_sink_write
  by_cases h : db.sinkFail db.logCalls = true <;> simp [h]

theorem process_fold_sink_congr (conn : ConnModel) (pt : Option String) :
    ∀ (ids : List String) (c errs1 errs2 : Nat) (rows : List RawEmailRow)
      (ph : List String) (l1 l2 : List LogEntry) (n1 n2 : Nat) (f1 f2 : Nat → Bool),
      ((ids.foldl (process_email_id conn pt) (c, errs1, ⟨rows, ph, l1, n1, f1⟩)).1
        = (ids.foldl (process_email_id conn pt) (c, errs2, ⟨rows, ph, l2, n2, f2⟩)).1)
    ∧ ((ids.foldl (process_email_id conn pt) (c, errs1, ⟨rows, ph, l1, n1, f1⟩)).2.2.rows
        = (ids.foldl (process_email_id conn pt) (c, errs2, ⟨rows, ph, l2, n2, f2⟩)).2.2.rows)
    ∧ ((ids.foldl (process_email_id conn pt) (c, errs1, ⟨rows, ph, l1, n1, f1⟩)).2.2.phantomIds
        = (ids.foldl (process_email_id conn pt) (c, errs2, ⟨rows, ph, l2, n2, f2⟩)).2.2.phantomIds) := by
  intro ids
  induction ids with
  | nil => intros; exact ⟨rfl, rfl, rfl⟩
  | cons i tl ih =>
    intro c errs1 errs2 rows ph l1 l2 n1 n2 f1 f2
    simp only [List.foldl_cons]
    cases hf : conn.fetch i with
    | error e =>
      simp only [process_email_id, hf]
      obtain ⟨lA, nA, hA⟩ := log_activity_shape ⟨rows, ph, l1, n1, f1⟩ (errorEntry pt i e)
      obtain ⟨lB, nB, hB⟩ := log_activity_shape ⟨rows, ph, l2, n2, f2⟩ (errorEntry pt i e)
      rw [hA, hB]
      exact ih c (errs1 + 1) (errs2 + 1) rows ph lA lB nA nB f1 f2
    | ok d =>
      by_cases ha : rows.any (fun x => x.message_id == d.message_id) = true
      · simp only [process_email_id, hf, store_email, ha, if_pos]
        exact ih c errs1 errs2 rows ph l1 l2 n1 n2 f1 f2
      · by_cases hph : d.message_id ∈ ph
        · have hcont : ph.contains d.message_id = true := by simp [hph]
          have hmid : (mk_raw_email d pt).message_id = d.message_id := rfl
          simp only [process_email_id, hf, store_email, db_insert, hmid,
            ha, hcont, Bool.false_eq_true, if_false, Bool.false_or, if_true]
          exact ih c errs1 errs2 rows ph l1 l2 n1 n2 f1 f2
        · have hcont : ph.contains d.message_id = false := by simp [hph]
          have hmid : (mk_raw_email d pt).message_id = d.message_id := rfl
          simp only [process_email_id, hf, store_email, db_insert, hmid,
            ha, hcont, Bool.false_eq_true, if_false, Bool.false_or, if_true]
          obtain ⟨lA, nA, hA⟩ :=
            log_activity_shape ⟨rows ++ [mk_raw_email d pt], ph, l1, n1, f1⟩ (successEntry pt d)
          obtain ⟨lB, nB, hB⟩ :=
            log_activity_shape ⟨rows ++ [mk_raw_email d pt], ph, l2, n2, f2⟩ (successEntry pt d)
          rw [show (⟨rows ++ [mk_raw_email d pt], ph, l1, n1, f1⟩ : DB)
              = { rows := rows ++ [mk_raw_email d pt], phantomIds := ph, logs := l1,
                  logCalls := n1, sinkFail := f1 } from rfl] at hA
          rw [show (⟨rows ++ [mk_raw_email d pt], ph, l2, n2, f2⟩ : DB)
              = { rows := rows ++ [mk_raw_email d pt], phantomIds := ph, logs := l2,
                  logCalls := n2, sinkFail := f2 } from rfl] at hB
          rw [hA, hB]
          exact ih (c + 1) errs1 errs2 (rows ++ [mk_raw_email d pt]) ph lA lB nA nB f1 f2

/-- C10: for every invocation of the activity logger, a failure while
writing the activity-log entry is caught inside
`_log_processing_activity` and never propagates to `extract_emails`: two
runs over the same rows, unique index and connector, differing only in
the failure behaviour of the log sink (and pre-existing log contents), return
the same value, raise the same exception if any, and leave the same
stored rows; a sink failure cannot abort the batch. -/
theorem c10_log_sink_failure_isolated (conn : ConnModel)
    (snd sbj : Option String) (dfil : Option DateFilterDict) (pt : Option String)
    (rows : List RawEmailRow) (ph : List String) (l1 l2 : List LogEntry)
    (n1 n2 : Nat) (f1 f2 : Nat → Bool) :
    outcomeCount (extract_emails conn snd sbj dfil pt ⟨rows, ph, l1, n1, f1⟩)
      = outcomeCount (extract_emails conn snd sbj dfil pt ⟨rows, ph, l2, n2, f2⟩)
  ∧ outcomeError (extract_emails conn snd sbj dfil pt ⟨rows, ph, l1, n1, f1⟩)
      = outcomeError (extract_emails conn snd sbj dfil pt ⟨rows, ph, l2, n2, f2⟩)
  ∧ (outcomeDB (extract_emails conn snd sbj dfil pt ⟨rows, ph, l1, n1, f1⟩)).rows
      = (outcomeDB (extract_emails conn snd sbj dfil pt ⟨rows, ph, l2, n2, f2⟩)).rows := by
  cases hc : conn.connectResult with
  | error e =>
    obtain ⟨lA, nA, hA⟩ := log_activity_shape ⟨rows, ph, l1, n1, f1⟩ (batchErrorEntry pt e)
    obtain ⟨lB, nB, hB⟩ := log_activity_shape ⟨rows, ph, l2, n2, f2⟩ (batchErrorEntry pt e)
    simp [extract_emails, hc, outcomeCount, outcomeError, outcomeDB, hA, hB]
  | ok u =>
    cases hs : conn.search ⟨snd, sbj, dfil⟩ with
    | error e =>
      obtain ⟨lA, nA, hA⟩ := log_activity_shape ⟨rows, ph, l1, n1, f1⟩ (batchErrorEntry pt e)
      obtain ⟨lB, nB, hB⟩ := log_activity_shape ⟨rows, ph, l2, n2, f2⟩ (batchErrorEntry pt e)
      simp [extract_emails, hc, hs, outcomeCount, outcomeError, outcomeDB, hA, hB]
    | ok ids =>
      by_cases hempty : ids.isEmpty
      · simp [extract_emails, hc, hs, hempty, outcomeCount, outcomeError, outcomeDB]
      · have h := process_fold_sink_congr conn pt ids 0 0 0 rows ph l1 l2 n1 n2 f1 f2
        simp [extract_emails, hc, hs, hempty, outcomeCount, outcomeError, outcomeDB,
          h.1, h.2.1]

/-- C2 counterexample: the claim says that when message 3 is a duplicate
the run records one "success" and one "skip" log entry; on the code a
duplicate is silently skipped without any log entry.  With 3 handles
where fetching the 2nd raises and the 3rd carries the same `message_id`
as the 1st, the run returns 1 (not 2), writes exactly 2 log entries, and
none of them has status "skip" or "skipped". -/
theorem c2_counterexample :
    outcomeCount (extract_emails
      ⟨.ok (), fun _ => .ok ["h1", "h2", "h3"],
        fun i => if i == "h2" then .error "boom"
          else .ok ⟨"m1", "a@x", "s", 0, "", "", ""⟩⟩
      none none none none ⟨[], [], [], 0, fun _ => false⟩) = some 1
  ∧ (outcomeDB (extract_emails
      ⟨.ok (), fun _ => .ok ["h1", "h2", "h3"],
        fun i => if i == "h2" then .error "boom"
          else .ok ⟨"m1", "a@x", "s", 0, "", "", ""⟩⟩
      none none none none ⟨[], [], [], 0, fun _ => false⟩)).logs.length = 2
  ∧ ((outcomeDB (extract_emails
      ⟨.ok (), fun _ => .ok ["h1", "h2", "h3"],
        fun i => if i == "h2" then .error "boom"
          else .ok ⟨"m1", "a@x", "s", 0, "", "", ""⟩⟩
      none none none none ⟨[], [], [], 0, fun _ => false⟩)).logs.filter
        (fun l => l.status == "skip" || l.status == "skipped")).length = 0 := by
  refine ⟨rfl, rfl, rfl⟩

/-- C2 amended: for a batch of 3 handles where fetching the 2nd raises and
the store starts empty with a healthy log sink, `extract_emails` stores
messages 1 and 3, returns success count 2, and records exactly one
activity-log entry with status "error" and two with status "success"; if
message 3 is a duplicate of message 1 it is silently skipped with no log
entry at all (success count 1, one "error" and one "success" entry); a
per-message failure never aborts the batch: the loop continues to the
next handle. -/
theorem c2_failure_isolation_amended (conn : ConnModel)
    (snd sbj : Option String) (dfil : Option DateFilterDict) (pt : Option String)
    (db : DB) (h1 h2 h3 : String) (d1 d3 : EmailData) (e : String)
    (hc : conn.connectResult = .ok ())
    (hs : conn.search ⟨snd, sbj, dfil⟩ = .ok [h1, h2, h3])
    (hf1 : conn.fetch h1 = .ok d1) (hf2 : conn.fetch h2 = .error e)
    (hf3 : conn.fetch h3 = .ok d3)
    (hrows : db.rows = []) (hph : db.phantomIds = []) (hlogs : db.logs = [])
    (hsink : db.sinkFail = fun _ => false) :
    (successEntry pt d1).status = "success"
  ∧ (errorEntry pt h2 e).status = "error"
  ∧ (d1.message_id ≠ d3.message_id →
      outcomeCount (extract_emails conn snd sbj dfil pt db) = some 2
    ∧ (outcomeDB (extract_emails conn snd sbj dfil pt db)).rows
        = [mk_raw_email d1 pt, mk_raw_email d3 pt]
    ∧ (outcomeDB (extract_emails conn snd sbj dfil pt db)).logs
        = [successEntry pt d1, errorEntry pt h2 e, successEntry pt d3])
  ∧ (d3.message_id = d1.message_id →
      outcomeCount (extract_emails conn snd sbj dfil pt db) = some 1
    ∧ (outcomeDB (extract_emails conn snd sbj dfil pt db)).rows
        = [mk_raw_email d1 pt]
    ∧ (outcomeDB (extract_emails conn snd sbj dfil pt db)).logs
        = [successEntry pt d1, errorEntry pt h2 e]) := by
  obtain ⟨rows0, ph0, logs0, n0, f0⟩ := db
  simp only at hrows hph hlogs hsink
  subst hrows hph hlogs hsink
  have hmid : (mk_raw_email d1 pt).message_id = d1.message_id := rfl
  have hmid3 : (mk_raw_email d3 pt).message_id = d3.message_id := rfl
  refine ⟨rfl, rfl, ?_, ?_⟩
  · intro hne
    refine ⟨?_, ?_, ?_⟩ <;>
      simp [extract_emails, hc, hs, process_email_id, hf1, hf2, hf3,
        store_email, db_insert, log_processing_activity, log_sink_write,
        outcomeCount, outcomeDB, hmid, hmid3, hne]
  · intro hdup
    refine ⟨?_, ?_, ?_⟩ <;>
      simp [extract_emails, hc, hs, process_email_id, hf1, hf2, hf3,
        store_email, db_insert, log_processing_activity, log_sink_write,
        outcomeCount, outcomeDB, hmid, hmid3, hdup]

/-- Witness for C2 (amended) at a concrete connector: handles `h1 h2 h3`,
the 2nd fetch raises `boom`, messages `m1` and `m3` distinct. -/
theorem c2_failure_isolation_amended_witness :
    (("m1" : String) ≠ "m3")
  ∧ outcomeCount (extract_emails
      ⟨.ok (), fun _ => .ok ["h1", "h2", "h3"],
        fun i => if i == "h2" then .error "boom"
          else if i == "h1" then .ok ⟨"m1", "a@x", "s1", 0, "", "", ""⟩
          else .ok ⟨"m3", "b@x", "s3", 0, "", "", ""⟩⟩
      none none none none ⟨[], [], [], 0, fun _ => false⟩) = some 2
  ∧ (outcomeDB (extract_emails
      ⟨.ok (), fun _ => .ok ["h1", "h2", "h3"],
        fun i => if i == "h2" then .error "boom"
          else if i == "h1" then .ok ⟨"m1", "a@x", "s1", 0, "", "", ""⟩
          else .ok ⟨"m3", "b@x", "s3", 0, "", "", ""⟩⟩
      none none none none ⟨[], [], [], 0, fun _ => false⟩)).logs
      = [successEntry none ⟨"m1", "a@x", "s1", 0, "", "", ""⟩,
         errorEntry none "h2" "boom",
         successEntry none ⟨"m3", "b@x", "s3", 0, "", "", ""⟩] := by
  refine ⟨by decide, ?_, ?_⟩
  · exact ((c2_failure_isolation_amended
      ⟨.ok (), fun _ => .ok ["h1", "h2", "h3"],
        fun i => if i == "h2" then .error "boom"
          else if i == "h1" then .ok ⟨"m1", "a@x", "s1", 0, "", "", ""⟩
          else .ok ⟨"m3", "b@x", "s3", 0, "", "", ""⟩⟩
      none none none none ⟨[], [], [], 0, fun _ => false⟩
      "h1" "h2" "h3" ⟨"m1", "a@x", "s1", 0, "", "", ""⟩
      ⟨"m3", "b@x", "s3", 0, "", "", ""⟩ "boom"
      rfl rfl rfl rfl rfl rfl rfl rfl rfl).2.2.1 (by decide)).1
  · exact ((c2_failure_isolation_amended
      ⟨.ok (), fun _ => .ok ["h1", "h2", "h3"],
        fun i => if i == "h2" then .error "boom"
          else if i == "h1" then .ok ⟨"m1", "a@x", "s1", 0, "", "", ""⟩
          else .ok ⟨"m3", "b@x", "s3", 0, "", "", ""⟩⟩
      none none none none ⟨[], [], [], 0, fun _ => false⟩
      "h1" "h2" "h3" ⟨"m1", "a@x", "s1", 0, "", "", ""⟩
      ⟨"m3", "b@x", "s3", 0, "", "", ""⟩ "boom"
      rfl rfl rfl rfl rfl rfl rfl rfl rfl).2.2.1 (by decide)).2.2

theorem process_fold_all_new (conn : ConnModel) (pt : Option String) :
    ∀ (ids : List String) (dat : String → EmailData) (c errs : Nat) (db : DB),
      (∀ i ∈ ids, conn.fetch i = .ok (dat i)) →
      (ids.map fun i => (dat i).message_id).Nodup →
      (∀ i ∈ ids, ∀ r ∈ db.rows, r.message_id ≠ (dat i).message_id) →
      (∀ i ∈ ids, (dat i).message_id ∉ db.phantomIds) →
      ((ids.foldl (process_email_id conn pt) (c, errs, db)).1 = c + ids.length
      ∧ (ids.foldl (process_email_id conn pt) (c, errs, db)).2.1 = errs
      ∧ (ids.foldl (process_email_id conn pt) (c, errs, db)).2.2.rows
          = db.rows ++ ids.map (fun i => mk_raw_email (dat i) pt)
      ∧ (ids.foldl (process_email_id conn pt) (c, errs, db)).2.2.phantomIds
          = db.phantomIds) := by
  intro ids
  induction ids with
  | nil => intro dat c errs db _ _ _ _; simp
  | cons i tl ih =>
    intro dat c errs db hf hnd hfresh hph
    have hfi : conn.fetch i = .ok (dat i) := hf i (List.mem_cons_self i tl)
    have hany : (db.rows.any fun x => x.message_id == (dat i).message_id) = false := by
      rw [List.any_eq_false]
      intro r hr
      simpa using hfresh i (List.mem_cons_self i tl) r hr
    have hcont : db.phantomIds.contains (dat i).message_id = false := by
      simp [hph i (List.mem_cons_self i tl)]
    have hmid : (mk_raw_email (dat i) pt).message_id = (dat i).message_id := rfl
    simp only [List.foldl_cons, process_email_id, hfi, store_email, db_insert,
      hmid, hany, hcont, Bool.or_false, Bool.false_eq_true, if_false]
    obtain ⟨lA, nA, hA⟩ := log_activity_shape
      ⟨db.rows ++ [mk_raw_email (dat i) pt], db.phantomIds, db.logs, db.logCalls,
        db.sinkFail⟩ (successEntry pt (dat i))
    rw [hA]
    have hnd_tl : (tl.map fun j => (dat j).message_id).Nodup := (List.nodup_cons.mp hnd).2
    have hhead : (dat i).message_id ∉ tl.map fun j => (dat j).message_id :=
      (List.nodup_cons.mp hnd).1
    have ihc := ih dat (c + 1) errs
      ⟨db.rows ++ [mk_raw_email (dat i) pt], db.phantomIds, lA, nA, db.sinkFail⟩
      (fun j hj => hf j (List.mem_cons_of_mem i hj))
      hnd_tl
      (by
        intro j hj r hr
        rcases List.mem_append.mp hr with hold | hnew
        · exact hfresh j (List.mem_cons_of_mem i hj) r hold
        · rcases List.mem_singleton.mp hnew with rfl
          rw [hmid]
          intro hcontra
          exact hhead (hcontra ▸ List.mem_map_of_mem (fun j => (dat j).message_id) hj)
      )
      (fun j hj => hph j (List.mem_cons_of_mem i hj))
    refine ⟨?_, ihc.2.1, ?_, ihc.2.2.2⟩
    · rw [ihc.1, List.length_cons]; omega
    · rw [ihc.2.2.1]; simp

theorem process_fold_all_dup (conn : ConnModel) (pt : Option String) :
    ∀ (ids : List String) (dat : String → EmailData) (c errs : Nat) (db : DB),
      (∀ i ∈ ids, conn.fetch i = .ok (dat i)) →
      (∀ i ∈ ids, ∃ r ∈ db.rows, r.message_id = (dat i).message_id) →
      ids.foldl (process_email_id conn pt) (c, errs, db) = (c, errs, db) := by
  intro ids
  induction ids with
  | nil => intro dat c errs db _ _; rfl
  | cons i tl ih =>
    intro dat c errs db hf hdup
    have hfi : conn.fetch i = .ok (dat i) := hf i (List.mem_cons_self i tl)
    have hany : (db.rows.any fun x => x.message_id == (dat i).message_id) = true := by
      rw [List.any_eq_true]
      obtain ⟨r, hr, heq⟩ := hdup i (List.mem_cons_self i tl)
      exact ⟨r, hr, by simp [heq]⟩
    simp only [List.foldl_cons, process_email_id, hfi, store_email, hany, if_true]
    exact ih dat c errs db (fun j hj => hf j (List.mem_cons_of_mem i hj))
      (fun j hj => hdup j (List.mem_cons_of_mem i hj))

theorem process_step_nodup (conn : ConnModel) (pt : Option String)
    (acc : Nat × Nat × DB) (i : String)
    (h : (acc.2.2.rows.map fun r => r.message_id).Nodup) :
    ((process_email_id conn pt acc i).2.2.rows.map fun r => r.message_id).Nodup := by
  obtain ⟨c, errs, db⟩ := acc
  simp only at h
  cases hf : conn.fetch i with
  | error e =>
    obtain ⟨lA, nA, hA⟩ := log_activity_shape db (errorEntry pt i e)
    simp only [process_email_id, hf, hA]
    exact h
  | ok d =>
    cases hany : (db.rows.any fun x => x.message_id == d.message_id) with
    | true =>
      simp only [process_email_id, hf, store_email, hany, if_true]
      exact h
    | false =>
      have hmid : (mk_raw_email d pt).message_id = d.message_id := rfl
      cases hcont : db.phantomIds.contains d.message_id with
      | true =>
        simp only [process_email_id, hf, store_email, db_insert, hmid, hany,
          hcont, Bool.false_eq_true, if_false, Bool.false_or, if_true]
        exact h
      | false =>
        have hnotin : d.message_id ∉ db.rows.map fun r => r.message_id := by
          intro hmem
          obtain ⟨r, hr, heq⟩ := List.mem_map.mp hmem
          have hb := List.any_eq_false.mp hany r hr
          rw [beq_iff_eq] at hb
          exact hb heq
        simp only [process_email_id, hf, store_email, db_insert, hmid, hany,
          hcont, Bool.false_eq_true, if_false, Bool.false_or, if_true]
        obtain ⟨lA, nA, hA⟩ := log_activity_shape
          ⟨db.rows ++ [mk_raw_email d pt], db.phantomIds, db.logs, db.logCalls,
            db.sinkFail⟩ (successEntry pt d)
        rw [hA]
        simp only [List.map_append, List.map_cons, List.map_nil]
        rw [List.nodup_append]
        refine ⟨h, List.nodup_singleton _, ?_⟩
        intro x hx hx1
        rcases List.mem_singleton.mp hx1 with rfl
        exact hnotin (by simpa [hmid] using hx)

/-- C1: running `extract_emails` twice with the identical filter and
identical connector state (all fetches succeeding with pairwise-distinct
message ids) over an initially empty store returns the full match count on
the first run and `0` on the second, the second run adds no rows, and at
no point do the stored rows contain two rows with the same `message_id`:
the rows after each run are duplicate-free, and every single per-handle
step of any run preserves duplicate-freedom of the stored rows. -/
theorem c1_idempotent_extraction (conn : ConnModel) (snd sbj : Option String)
    (dfil : Option DateFilterDict) (pt : Option String) (db : DB)
    (ids : List String) (dat : String → EmailData)
    (hc : conn.connectResult = .ok ())
    (hs : conn.search ⟨snd, sbj, dfil⟩ = .ok ids)
    (hf : ∀ i ∈ ids, conn.fetch i = .ok (dat i))
    (hnd : (ids.map fun i => (dat i).message_id).Nodup)
    (hrows : db.rows = []) (hph : db.phantomIds = []) :
    outcomeCount (extract_emails conn snd sbj dfil pt db) = some ids.length
  ∧ outcomeCount (extract_emails conn snd sbj dfil pt
      (outcomeDB (extract_emails conn snd sbj dfil pt db))) = some 0
  ∧ (outcomeDB (extract_emails conn snd sbj dfil pt
      (outcomeDB (extract_emails conn snd sbj dfil pt db)))).rows
      = (outcomeDB (extract_emails conn snd sbj dfil pt db)).rows
  ∧ ((outcomeDB (extract_emails conn snd sbj dfil pt db)).rows.map
      fun r => r.message_id).Nodup
  ∧ ((outcomeDB (extract_emails conn snd sbj dfil pt
      (outcomeDB (extract_emails conn snd sbj dfil pt db)))).rows.map
      fun r => r.message_id).Nodup
  ∧ ∀ (acc : Nat × Nat × DB) (i : String),
      ((acc.2.2.rows.map fun r => r.message_id).Nodup) →
      (((process_email_id conn pt acc i).2.2.rows.map fun r => r.message_id).Nodup) := by
  by_cases hemp : ids.isEmpty
  · have hids : ids = [] := by
      cases ids with
      | nil => rfl
      | cons a l => simp [List.isEmpty] at hemp
    subst hids
    have hrun : extract_emails conn snd sbj dfil pt db = .ok 0 db := by
      simp [extract_emails, hc, hs]
    refine ⟨by simp [hrun, outcomeCount], ?_, ?_, ?_, ?_, ?_⟩
    · simp [hrun, outcomeDB, outcomeCount, extract_emails, hc, hs]
    · simp [hrun, outcomeDB, extract_emails, hc, hs]
    · simp [hrun, outcomeDB, hrows]
    · simp [hrun, outcomeDB, extract_emails, hc, hs, hrows]
    · exact fun acc i h => process_step_nodup conn pt acc i h
  · have hfold1 := process_fold_all_new conn pt ids dat 0 0 db hf hnd
      (by intro i hi r hr; rw [hrows] at hr; exact absurd hr (List.not_mem_nil r))
      (by intro i hi; rw [hph]; exact List.not_mem_nil _)
    have hrun1 : extract_emails conn snd sbj dfil pt db
        = .ok (ids.foldl (process_email_id conn pt) (0, 0, db)).1
            (ids.foldl (process_email_id conn pt) (0, 0, db)).2.2 := by
      simp [extract_emails, hc, hs, hemp]
    have hrows1 : (ids.foldl (process_email_id conn pt) (0, 0, db)).2.2.rows
        = ids.map (fun i => mk_raw_email (dat i) pt) := by
      rw [hfold1.2.2.1, hrows, List.nil_append]
    have hph1 : (ids.foldl (process_email_id conn pt) (0, 0, db)).2.2.phantomIds = [] := by
      rw [hfold1.2.2.2, hph]
    have hdup : ∀ i ∈ ids, ∃ r ∈ (ids.foldl (process_email_id conn pt) (0, 0, db)).2.2.rows,
        r.message_id = (dat i).message_id := by
      intro i hi
      refine ⟨mk_raw_email (dat i) pt, ?_, rfl⟩
      rw [hrows1]
      exact List.mem_map_of_mem (fun i => mk_raw_email (dat i) pt) hi
    have hfold2 := process_fold_all_dup conn pt ids dat 0 0
      (ids.foldl (process_email_id conn pt) (0, 0, db)).2.2 hf hdup
    have hrun2 : extract_emails conn snd sbj dfil pt
        (ids.foldl (process_email_id conn pt) (0, 0, db)).2.2
        = .ok 0 (ids.foldl (process_email_id conn pt) (0, 0, db)).2.2 := by
      simp [extract_emails, hc, hs, hemp, hfold2]
    have hndrows : (((ids.foldl (process_email_id conn pt) (0, 0, db)).2.2.rows.map
        fun r => r.message_id)).Nodup := by
      rw [hrows1, List.map_map]
      exact hnd
    refine ⟨?_, ?_, ?_, ?_, ?_, ?_⟩
    · rw [hrun1]
      simp [outcomeCount, hfold1.1]
    · rw [hrun1]
      simp only [outcomeDB]
      rw [hrun2]
      rfl
    · rw [hrun1]
      simp only [outcomeDB]
      rw [hrun2]
    · rw [hrun1]
      simp only [outcomeDB]
      exact hndrows
    · rw [hrun1]
      simp only [outcomeDB]
      rw [hrun2]
      exact hndrows
    · exact fun acc i h => process_step_nodup conn pt acc i h

/-- Witness for C1 at a concrete two-handle connector with distinct
message ids over an initially empty store. -/
theorem c1_idempotent_extraction_witness :
    ((⟨.ok (), fun _ => .ok ["a", "b"],
        fun i => if i == "a" then .ok ⟨"mA", "x@x", "sa", 0, "", "", ""⟩
          else .ok ⟨"mB", "y@y", "sb", 0, "", "", ""⟩⟩ : ConnModel).fetch "a"
      = .ok ⟨"mA", "x@x", "sa", 0, "", "", ""⟩)
  ∧ (["a", "b"].map fun i =>
      (if i == "a" then (⟨"mA", "x@x", "sa", 0, "", "", ""⟩ : EmailData)
        else ⟨"mB", "y@y", "sb", 0, "", "", ""⟩).message_id).Nodup
  ∧ outcomeCount (extract_emails
      ⟨.ok (), fun _ => .ok ["a", "b"],
        fun i => if i == "a" then .ok ⟨"mA", "x@x", "sa", 0, "", "", ""⟩
          else .ok ⟨"mB", "y@y", "sb", 0, "", "", ""⟩⟩
      none none none none ⟨[], [], [], 0, fun _ => false⟩) = some 2
  ∧ outcomeCount (extract_emails
      ⟨.ok (), fun _ => .ok ["a", "b"],
        fun i => if i == "a" then .ok ⟨"mA", "x@x", "sa", 0, "", "", ""⟩
          else .ok ⟨"mB", "y@y", "sb", 0, "", "", ""⟩⟩
      none none none none
      (outcomeDB (extract_emails
        ⟨.ok (), fun _ => .ok ["a", "b"],
          fun i => if i == "a" then .ok ⟨"mA", "x@x", "sa", 0, "", "", ""⟩
            else .ok ⟨"mB", "y@y", "sb", 0, "", "", ""⟩⟩
        none none none none ⟨[], [], [], 0, fun _ => false⟩))) = some 0 := by
  have h := c1_idempotent_extraction
    ⟨.ok (), fun _ => .ok ["a", "b"],
      fun i => if i == "a" then .ok ⟨"mA", "x@x", "sa", 0, "", "", ""⟩
        else .ok ⟨"mB", "y@y", "sb", 0, "", "", ""⟩⟩
    none none none none ⟨[], [], [], 0, fun _ => false⟩
    ["a", "b"]
    (fun i => if i == "a" then ⟨"mA", "x@x", "sa", 0, "", "", ""⟩
      else ⟨"mB", "y@y", "sb", 0, "", "", ""⟩)
    rfl rfl (by intro i hi; fin_cases hi <;> rfl) (by decide) rfl rfl
  exact ⟨rfl, by decide, h.1, h.2.1⟩
